import Mathlib

/-
  Verification of the br-holiday library (aquarela-io/br-holiday).

  The development shallowly embeds the TypeScript sources:
  - the class-based service in src/index.ts (BRHoliday.getHolidays,
    BRHoliday.isHoliday, getCacheTTL, reduceCacheSize, startCacheCleanup,
    the module-level API_CACHE and cleanup timer), and
  - the functional variant (normalizeDate, getHolidays, isHoliday) together
    with its fetcher fetchHolidaysFromAPI and error classes.

  JavaScript numbers that hold years and millisecond timestamps are modelled
  as Nat.  The only two places where JS subtraction of timestamps can go
  negative are the comparisons `now - ts < ttl` and `now - ts > ttl`; for
  now < ts the JS results (negative < positive, negative > positive) agree
  with truncated Nat subtraction (0 < ttl, 0 > ttl), so Nat is faithful there.
  Asynchrony is modelled by passing the outcome of the (single) awaited fetch
  as an explicit argument; the JS Map is modelled as an insertion-ordered
  association list with unique keys, exactly the observable behaviour of Map.
-/

/-- A Brazilian holiday record, from `type Holiday` in src/index.ts. -/
structure Holiday where
  date : String
  name : String
  type : String
deriving DecidableEq

/-- Error taxonomy of the library: InvalidDateError, InvalidYearError and
APIError from types.ts; the plain `Error` thrown by the class methods is
classified by its message into the same taxonomy. -/
inductive BRError where
  | invalidDate (msg : String)
  | invalidYear (msg : String)
  | apiError (msg : String)
deriving DecidableEq

/-- Outcome of the awaited `fetch` + `response.json()` pair in the class
variant of getHolidays: a parsed body, a non-ok response with its numeric
status, or a rejection (network or JSON failure) with its message. -/
inductive FetchOutcome where
  | ok (data : List Holiday)
  | httpError (status : Nat)
  | reject (msg : String)
deriving DecidableEq

/-- STATIC_HOLIDAYS from src/index.ts: the frozen build-time table, with
entries for 2024, 2025 and 2026 exactly as embedded in the source. -/
def STATIC_HOLIDAYS : Nat → Option (List Holiday)
  | 2024 => some
      [⟨"2024-01-01", "Confraternização Universal", "national"⟩,
       ⟨"2024-02-13", "Carnaval", "national"⟩,
       ⟨"2024-03-29", "Sexta-feira Santa", "national"⟩,
       ⟨"2024-04-21", "Tiradentes", "national"⟩,
       ⟨"2024-05-01", "Dia do Trabalho", "national"⟩,
       ⟨"2024-12-25", "Natal", "national"⟩]
  | 2025 => some
      [⟨"2025-01-01", "Test Holiday 1", "national"⟩,
       ⟨"2025-12-25", "Test Holiday 2", "national"⟩]
  | 2026 => some
      [⟨"2026-01-01", "Test Holiday 1", "national"⟩,
       ⟨"2026-12-25", "Test Holiday 2", "national"⟩]
  | _ => none

/-- A cache entry of API_CACHE: `{ data: Holiday[]; timestamp: number }`. -/
structure CacheEntry where
  data : List Holiday
  timestamp : Nat
deriving DecidableEq

/-- The module-level `API_CACHE = new Map<number, CacheEntry>()`, modelled as
an insertion-ordered association list with unique keys. -/
abbrev Cache := List (Nat × CacheEntry)

/-- Map.get: the entry stored under a year, if any. -/
def cacheGet (c : Cache) (y : Nat) : Option CacheEntry :=
  (c.find? (fun p => p.1 == y)).map (fun p => p.2)

/-- Map.set: replace in place when the key exists (insertion order kept),
otherwise append at the end, exactly as a JS Map iterates. -/
def cacheSet : Cache → Nat → CacheEntry → Cache
  | [], y, e => [(y, e)]
  | p :: rest, y, e => if p.1 == y then (y, e) :: rest else p :: cacheSet rest y e

/-- Map.delete: drop the entry stored under a year. -/
def cacheDelete (c : Cache) (y : Nat) : Cache :=
  c.filter (fun p => p.1 != y)

def CACHE_TTL_FUTURE : Nat := 1000 * 60 * 60 * 24 * 30
def CACHE_TTL_CURRENT : Nat := 1000 * 60 * 60 * 24 * 7
def CACHE_MAX_SIZE : Nat := 100
def CACHE_CLEANUP_TARGET : Nat := 80
def CACHE_IMMEDIATE_CLEANUP_THRESHOLD : Nat := 50
def CACHE_IMMEDIATE_CLEANUP_TARGET : Nat := 30
def YEAR_PRESERVATION_WINDOW : Nat := 2

/-- getCacheTTL from src/index.ts.  `currentYear` is the value of
`new Date().getFullYear()` at the moment of the call, passed explicitly;
`none` renders the `null` returned for past years. -/
def getCacheTTL (currentYear year : Nat) : Option Nat :=
  if year < currentYear then none
  else if year == currentYear then some CACHE_TTL_CURRENT
  else some CACHE_TTL_FUTURE

/-- `Math.abs(year - currentYear)` on year numbers. -/
def absDiff (a b : Nat) : Nat := if a ≤ b then b - a else a - b

/-- The preservation test `Math.abs(year - currentYear) <= YEAR_PRESERVATION_WINDOW`
used (negated) by reduceCacheSize when preserveRecentYears is set. -/
def inPreservationWindow (currentYear year : Nat) : Bool :=
  absDiff year currentYear ≤ YEAR_PRESERVATION_WINDOW

/-- Comparison relation of `entries.sort((a, b) => a[1].timestamp - b[1].timestamp)`:
ascending order of insertion timestamp. -/
def tsLE (a b : Nat × CacheEntry) : Prop := a.2.timestamp ≤ b.2.timestamp

instance : DecidableRel tsLE := fun a b => inferInstanceAs (Decidable (a.2.timestamp ≤ b.2.timestamp))

instance : IsTotal (Nat × CacheEntry) tsLE := ⟨fun a b => Nat.le_total a.2.timestamp b.2.timestamp⟩

instance : IsTrans (Nat × CacheEntry) tsLE := ⟨fun _ _ _ h1 h2 => Nat.le_trans h1 h2⟩

/-- `Array.from(API_CACHE.entries())` sorted by the comparator above.
`Array.prototype.sort` is stable and sorts ascending under this comparator;
insertion sort is the stable ascending sort with the same result. -/
def sortByTimestamp (c : Cache) : List (Nat × CacheEntry) :=
  List.insertionSort tsLE c

/-- The `while (API_CACHE.size > targetSize && entries.length > 0)` loop of
reduceCacheSize: shift the oldest remaining sorted entry; when
preserveRecentYears is set, delete it only when its year is outside the
preservation window, otherwise delete it unconditionally. -/
def reduceLoop (currentYear : Nat) (preserve : Bool) (targetSize : Nat) :
    Cache → List (Nat × CacheEntry) → Cache
  | c, [] => c
  | c, p :: rest =>
    if c.length ≤ targetSize then c
    else
      reduceLoop currentYear preserve targetSize
        (if preserve && inPreservationWindow currentYear p.1 then c else cacheDelete c p.1)
        rest

/-- reduceCacheSize from src/index.ts: no-op while occupancy is at or below
maxSize, otherwise evict by the loop above over the timestamp-sorted
snapshot of the entries. -/
def reduceCacheSize (currentYear : Nat) (c : Cache)
    (maxSize targetSize : Nat) (preserveRecentYears : Bool) : Cache :=
  if c.length ≤ maxSize then c
  else reduceLoop currentYear preserveRecentYears targetSize c (sortByTimestamp c)

/-- The TTL scan of the 24-hour cleanup callback: an entry is expired when its
TTL class is finite and `now - entry.timestamp > ttl`. -/
def entryExpired (currentYear now : Nat) (p : Nat × CacheEntry) : Bool :=
  match getCacheTTL currentYear p.1 with
  | none => false
  | some ttl => now - p.2.timestamp > ttl

/-- One run of the setInterval callback installed by startCacheCleanup:
delete every expired entry, then reduceCacheSize(CACHE_MAX_SIZE,
CACHE_CLEANUP_TARGET, true). -/
def cleanupPass (currentYear now : Nat) (c : Cache) : Cache :=
  reduceCacheSize currentYear
    (c.filter (fun p => !entryExpired currentYear now p))
    CACHE_MAX_SIZE CACHE_CLEANUP_TARGET true

/-- The static-data guard `!this.skipStatic && STATIC_HOLIDAYS[year]` of the
class methods. -/
def staticHit (skipStatic : Bool) (year : Nat) : Option (List Holiday) :=
  if skipStatic then none else STATIC_HOLIDAYS year

/-- The cache read path of BRHoliday.getHolidays (lines checking
`cached` and `ttl === null || Date.now() - cached.timestamp < ttl`):
the data of a valid hit, `none` on a miss or a stale entry. -/
def cacheLookup (currentYear now : Nat) (cache : Cache) (year : Nat) :
    Option (List Holiday) :=
  match cacheGet cache year with
  | none => none
  | some e =>
    match getCacheTTL currentYear year with
    | none => some e.data
    | some ttl => if now - e.timestamp < ttl then some e.data else none

/-- The error thrown out of the fetch block of BRHoliday.getHolidays:
`Error("API returned status " + status)` for a non-ok response, the
rejection itself otherwise.  (Unused for a successful fetch.) -/
def thrownError : FetchOutcome → BRError
  | .ok _ => .apiError ""
  | .httpError s => .apiError ("API returned status " ++ toString s)
  | .reject m => .apiError m

/-- BRHoliday.getHolidays.  Returns the result, the API_CACHE after the call,
and whether the fetch was performed.  `currentYear` and `now` are the clock
readings during the call; `f` is the outcome of the fetch had it run. -/
def getHolidaysC (skipStatic : Bool) (currentYear now : Nat) (f : FetchOutcome)
    (cache : Cache) (year : Nat) :
    Except BRError (List Holiday) × Cache × Bool :=
  match staticHit skipStatic year with
  | some hs => (.ok hs, cache, false)
  | none =>
    match cacheLookup currentYear now cache year with
    | some d => (.ok d, cache, false)
    | none =>
      match f with
      | .ok data =>
        let c1 := cacheSet cache year ⟨data, now⟩
        let c2 := reduceCacheSize currentYear c1
          CACHE_IMMEDIATE_CLEANUP_THRESHOLD CACHE_IMMEDIATE_CLEANUP_TARGET false
        (.ok data, c2, true)
      | .httpError s =>
        (.error (.apiError ("API returned status " ++ toString s)), cacheDelete cache year, true)
      | .reject m =>
        (.error (.apiError m), cacheDelete cache year, true)

/-- The regex test `/^\d{4}-\d{2}-\d{2}$/.test(date)`. -/
def isDateFormat (s : String) : Bool :=
  match s.toList with
  | [a, b, c, d, s1, e, f, s2, g, h] =>
    a.isDigit && b.isDigit && c.isDigit && d.isDigit && s1 == '-' &&
    e.isDigit && f.isDigit && s2 == '-' && g.isDigit && h.isDigit
  | _ => false

/-- Decimal value of a digit list (most significant first). -/
def natOfDigits (cs : List Char) : Nat :=
  cs.foldl (fun a c => a * 10 + (c.toNat - 48)) 0

/-- `parseInt(date.substring(0, 4), 10)`: parseInt consumes the leading
digit run of its argument.  On the strings reaching it here the first four
characters are digits, so the digit run is exactly those four characters. -/
def parseYear (s : String) : Nat :=
  natOfDigits ((s.toList.take 4).takeWhile Char.isDigit)

/-- BRHoliday.isHoliday: regex-validate, parse the year, use the optimized
static scan when available, otherwise delegate to getHolidays and scan.
Same instrumented result type as getHolidaysC. -/
def isHolidayC (skipStatic : Bool) (currentYear now : Nat) (f : FetchOutcome)
    (cache : Cache) (date : String) :
    Except BRError Bool × Cache × Bool :=
  if isDateFormat date then
    let year := parseYear date
    match staticHit skipStatic year with
    | some hs => (.ok (hs.any (fun h => h.date == date)), cache, false)
    | none =>
      match getHolidaysC skipStatic currentYear now f cache year with
      | (.ok hs, c, fl) => (.ok (hs.any (fun h => h.date == date)), c, fl)
      | (.error e, c, fl) => (.error e, c, fl)
  else
    (.error (.invalidDate "Invalid date format. Use YYYY-MM-DD"), cache, false)

deriving instance DecidableEq for Except

/-
  Functional variant: normalizeDate, getHolidays, isHoliday (src/index.ts of
  the 2.0 line), its fetcher (api.ts: fetchHolidaysFromAPI) and the error
  classes of types.ts.
-/

/-- The calendar date carried by a valid JS Date value, as observed through
getFullYear / getMonth + 1 / getDate (local calendar). -/
structure JsDate where
  year : Nat
  month : Nat
  day : Nat
deriving DecidableEq

def isLeapYear (y : Nat) : Bool :=
  y % 4 == 0 && (y % 100 != 0 || y % 400 == 0)

def daysInMonth (y m : Nat) : Nat :=
  if m == 2 then (if isLeapYear y then 29 else 28)
  else if m == 4 || m == 6 || m == 9 || m == 11 then 30
  else 31

/-- `new Date(s + "T00:00:00")` for a string s matching the calendar-date
pattern, as Node evaluates it: the ISO local date-time parse succeeds exactly
when month and day are in range for the written year, and then yields that
calendar date at local midnight. -/
def parseIsoLocal (s : String) : Option JsDate :=
  let cs := s.toList
  let y := natOfDigits (cs.take 4)
  let m := natOfDigits ((cs.drop 5).take 2)
  let d := natOfDigits ((cs.drop 8).take 2)
  if 1 ≤ m && m ≤ 12 && 1 ≤ d && d ≤ daysInMonth y m then some ⟨y, m, d⟩ else none

/-- `String(n).padStart(2, "0")`. -/
def pad2 (n : Nat) : String :=
  if n < 10 then "0" ++ toString n else toString n

/-- The template literal of normalizeDate:
`${year}-${month}-${day}` with month and day zero-padded. -/
def formatYMD (d : JsDate) : String :=
  toString d.year ++ "-" ++ pad2 d.month ++ "-" ++ pad2 d.day

def INVALID_DATE_MSG : String :=
  "Invalid date format. Use Date object, ISO string, or YYYY-MM-DD format"

/-- normalizeDate on string input.  Strings matching the calendar-date
pattern go through the ISO local parse above; any other string goes through
`new Date(date)`, whose implementation-defined parse is abstracted as the
oracle `fallbackParse` (`none` renders an invalid Date, i.e. NaN time value).
Date-object input, which cannot be invalid here, is outside this model. -/
def normalizeDate (fallbackParse : String → Option JsDate) (date : String) :
    Except BRError String :=
  if isDateFormat date then
    match parseIsoLocal date with
    | some d => .ok (formatYMD d)
    | none => .error (.invalidDate INVALID_DATE_MSG)
  else
    match fallbackParse date with
    | some d => .ok (formatYMD d)
    | none => .error (.invalidDate INVALID_DATE_MSG)

/-- A record of the JSON body returned by the provider, before the mapping
applied by fetchHolidaysFromAPI; `type` is absent (or null) when the record
has no type field. -/
structure RawHoliday where
  date : String
  name : String
  type : Option String
deriving DecidableEq

/-- The response seen by fetchHolidaysFromAPI: an ok response with a parsed
array body, a non-ok response with its statusText, or a rejected
fetch/json promise with its message. -/
inductive ApiResponse where
  | success (body : List RawHoliday)
  | httpFailure (statusText : String)
  | networkFailure (msg : String)
deriving DecidableEq

/-- `holiday.type || "national"`: the JS or-default, under which a missing
field and the empty string are both falsy. -/
def jsOrNational : Option String → String
  | none => "national"
  | some t => if t == "" then "national" else t

/-- The record mapping of fetchHolidaysFromAPI. -/
def toHoliday (h : RawHoliday) : Holiday :=
  ⟨h.date, h.name, jsOrNational h.type⟩

/-- fetchHolidaysFromAPI (api.ts): APIError on a non-ok response or a network
failure, otherwise the mapped body. -/
def fetchHolidaysFromAPI (year : Nat) (resp : ApiResponse) :
    Except BRError (List Holiday) :=
  match resp with
  | .success body => .ok (body.map toHoliday)
  | .httpFailure st =>
    .error (.apiError ("Failed to fetch holidays for year " ++ toString year ++ ": " ++ st))
  | .networkFailure m =>
    .error (.apiError ("Network error fetching holidays for year " ++ toString year ++ ": " ++ m))

/-- Module-level getHolidays of the functional variant.  Its static table is
produced at build time (imported from static-data, generated by
scripts/generate-static.js), so it is passed as a parameter here. -/
def getHolidaysFn (staticTable : Nat → Option (List Holiday))
    (year : Nat) (resp : ApiResponse) : Except BRError (List Holiday) :=
  if 1900 ≤ year && year ≤ 2100 then
    match staticTable year with
    | some hs => .ok hs
    | none => fetchHolidaysFromAPI year resp
  else
    .error (.invalidYear ("Year must be between 1900 and 2100, got " ++ toString year))

/-- Module-level isHoliday of the functional variant, on string input. -/
def isHolidayFn (staticTable : Nat → Option (List Holiday))
    (fallbackParse : String → Option JsDate) (resp : ApiResponse)
    (date : String) : Except BRError Bool :=
  match normalizeDate fallbackParse date with
  | .error e => .error e
  | .ok nd =>
    match getHolidaysFn staticTable (parseYear nd) resp with
    | .error e => .error e
    | .ok hs => .ok (hs.any (fun h => h.date == nd))

/-
  Reference-instrumented model of BRHoliday.getHolidays, used to reason about
  array identity (which JS array object a caller receives versus which array
  object the cache entry holds).  A Store is the heap of allocated arrays;
  a reference is an index into it.  Spread syntax and response.json() each
  allocate a fresh array; `API_CACHE.set(year, { data, timestamp })` stores
  the reference `data` unchanged, and `return data` returns that same
  reference.
-/

structure Store where
  arrs : List (List Holiday)
deriving DecidableEq

def Store.alloc (s : Store) (v : List Holiday) : Store × Nat :=
  (⟨s.arrs ++ [v]⟩, s.arrs.length)

def Store.read (s : Store) (r : Nat) : List Holiday :=
  s.arrs.getD r []

/-- In-place mutation of the array behind a reference (what a caller does
when it mutates a returned array). -/
def Store.write (s : Store) (r : Nat) (v : List Holiday) : Store :=
  ⟨s.arrs.set r v⟩

/-- API_CACHE in the reference model: entries hold a reference to their data
array instead of the list itself. -/
structure RCacheEntry where
  dataRef : Nat
  timestamp : Nat
deriving DecidableEq

abbrev RCache := List (Nat × RCacheEntry)

def rcacheGet (c : RCache) (y : Nat) : Option RCacheEntry :=
  (c.find? (fun p => p.1 == y)).map (fun p => p.2)

def rcacheSet : RCache → Nat → RCacheEntry → RCache
  | [], y, e => [(y, e)]
  | p :: rest, y, e => if p.1 == y then (y, e) :: rest else p :: rcacheSet rest y e

def rcacheDelete (c : RCache) (y : Nat) : RCache :=
  c.filter (fun p => p.1 != y)

/-- The cache read path in the reference model: the dataRef of a valid hit. -/
def rcacheLookup (currentYear now : Nat) (c : RCache) (year : Nat) : Option Nat :=
  match rcacheGet c year with
  | none => none
  | some e =>
    match getCacheTTL currentYear year with
    | none => some e.dataRef
    | some ttl => if now - e.timestamp < ttl then some e.dataRef else none

/-- reduceCacheSize in the reference model (same policy, on RCache). -/
def rreduceLoop (currentYear : Nat) (preserve : Bool) (targetSize : Nat) :
    RCache → List (Nat × RCacheEntry) → RCache
  | c, [] => c
  | c, p :: rest =>
    if c.length ≤ targetSize then c
    else
      rreduceLoop currentYear preserve targetSize
        (if preserve && inPreservationWindow currentYear p.1 then c else rcacheDelete c p.1)
        rest

def rreduceCacheSize (currentYear : Nat) (c : RCache)
    (maxSize targetSize : Nat) (preserveRecentYears : Bool) : RCache :=
  if c.length ≤ maxSize then c
  else rreduceLoop currentYear preserveRecentYears targetSize c
    (List.insertionSort (fun a b => a.2.timestamp ≤ b.2.timestamp) c)

/-- BRHoliday.getHolidays in the reference model.  Returns a reference to the
array handed to the caller, the heap, the cache and the fetch flag.
The static branch returns a fresh copy (`[...STATIC_HOLIDAYS[year]]`); the
cache-hit branch returns a fresh copy (`[...cached.data]`); the fetch branch
stores the array produced by response.json() in the cache and returns that
same array. -/
def getHolidaysR (skipStatic : Bool) (currentYear now : Nat) (f : FetchOutcome)
    (st : Store) (cache : RCache) (year : Nat) :
    Except BRError Nat × Store × RCache × Bool :=
  match staticHit skipStatic year with
  | some hs =>
    let a := st.alloc hs
    (.ok a.2, a.1, cache, false)
  | none =>
    match rcacheLookup currentYear now cache year with
    | some dref =>
      let a := st.alloc (st.read dref)
      (.ok a.2, a.1, cache, false)
    | none =>
      match f with
      | .ok data =>
        let a := st.alloc data
        let c1 := rcacheSet cache year ⟨a.2, now⟩
        let c2 := rreduceCacheSize currentYear c1
          CACHE_IMMEDIATE_CLEANUP_THRESHOLD CACHE_IMMEDIATE_CLEANUP_TARGET false
        (.ok a.2, a.1, c2, true)
      | .httpError s =>
        (.error (.apiError ("API returned status " ++ toString s)), st, rcacheDelete cache year, true)
      | .reject m =>
        (.error (.apiError m), st, rcacheDelete cache year, true)

/-
  Process-level model: the module state shared by every BRHoliday instance
  (API_CACHE and the cleanup timer), and the constructor.
-/

/-- The module state of src/index.ts: API_CACHE and cacheCleanupTimer.
`timersEverStarted` counts how many times setInterval has ever been called,
to express that the timer is started at most once. -/
structure ProcState where
  cache : Cache
  timerStarted : Bool
  timersEverStarted : Nat
deriving DecidableEq

/-- startCacheCleanup: installs the interval timer only when
`cacheCleanupTimer` is null. -/
def startCacheCleanupS (s : ProcState) : ProcState :=
  if s.timerStarted then s
  else { s with timerStarted := true, timersEverStarted := s.timersEverStarted + 1 }

/-- The BRHoliday constructor: records skipStatic (the only per-instance
state) and calls startCacheCleanup on the shared module state. -/
def mkBRHoliday (skipStatic : Bool) (s : ProcState) : Bool × ProcState :=
  (skipStatic, startCacheCleanupS s)

/-- BRHoliday.getHolidays as an action on the shared module state, for an
instance with the given skipStatic flag. -/
def instGetHolidays (inst : Bool) (currentYear now : Nat) (f : FetchOutcome)
    (s : ProcState) (year : Nat) :
    Except BRError (List Holiday) × ProcState × Bool :=
  let r := getHolidaysC inst currentYear now f s.cache year
  (r.1, { s with cache := r.2.1 }, r.2.2)

/-- Construction of a sequence of instances against the shared state. -/
def constructMany (opts : List Bool) (s : ProcState) : ProcState :=
  opts.foldl (fun s o => (mkBRHoliday o s).2) s

/-- A sequence of getHolidays calls, each given as (now, year), used to build
concrete execution scenarios; every fetch succeeds with an empty body. -/
def runCalls (skipStatic : Bool) (currentYear : Nat) (steps : List (Nat × Nat))
    (c : Cache) : Cache :=
  steps.foldl (fun c s => (getHolidaysC skipStatic currentYear s.1 (.ok []) c s.2).2.1) c

/-- The outcomes of the fetch block that end in the catch clause. -/
def fetchFails : FetchOutcome → Bool
  | .ok _ => false
  | .httpError _ => true
  | .reject _ => true

/-- The prefix of eviction steps actually executed by the loop, as a fold:
each consumed sorted entry is deleted unless protected by the window. -/
def foldDel (cy : Nat) (pres : Bool) (c : Cache) (l : List (Nat × CacheEntry)) : Cache :=
  l.foldl (fun c q => if pres && inPreservationWindow cy q.1 then c else cacheDelete c q.1) c

/-- C5 counterexample scenario, first call: getHolidays(1999) with skipStatic
at time 100 against an empty cache inserts a cache entry for the past year
1999 (currentYear 2025). -/
def c5CacheAfterInsert : Cache := (getHolidaysC true 2025 100 (.ok []) [] 1999).2.1

/-- C5 counterexample scenario, then fifty further getHolidays calls for the
fresh years 3001..3050 at times 101..150; the call that pushes the cache past
fifty entries triggers the write-path reduceCacheSize(50, 30, false). -/
def c5CacheAfterMore : Cache :=
  runCalls true 2025 ((List.range 50).map (fun i => (101 + i, 3001 + i))) c5CacheAfterInsert

/-- C8 counterexample scenario: a fetch-path call of the reference model
(skipStatic, empty heap and cache, fetch succeeds with one record). -/
def c8RunA : Except BRError Nat × Store × RCache × Bool :=
  getHolidaysR true 2025 100 (.ok [⟨"1999-01-01", "Ano Novo", "national"⟩]) ⟨[]⟩ [] 1999

/-- A later lookup of the same year, without any mutation in between. -/
def c8RunB : Except BRError Nat × Store × RCache × Bool :=
  getHolidaysR true 2025 200 (.reject "e") c8RunA.2.1 c8RunA.2.2.1 1999

/-- The same later lookup after the caller mutates the array (reference 0)
that the first call returned. -/
def c8RunC : Except BRError Nat × Store × RCache × Bool :=
  getHolidaysR true 2025 200 (.reject "e") (Store.write c8RunA.2.1 0 []) c8RunA.2.2.1 1999


/-
  Supporting lemmas about the cache operations.
-/

theorem staticHit_of_none {year : Nat} (b : Bool) (h : STATIC_HOLIDAYS year = none) :
    staticHit b year = none := by
  cases b <;> simp [staticHit, h]

theorem cacheGet_cons (p : Nat × CacheEntry) (l : Cache) (y : Nat) :
    cacheGet (p :: l) y = if p.1 == y then some p.2 else cacheGet l y := by
  by_cases h : p.1 == y <;> simp_all [cacheGet, List.find?_cons]

theorem cacheGet_delete_self (c : Cache) (y : Nat) :
    cacheGet (cacheDelete c y) y = none := by
  induction c with
  | nil => rfl
  | cons p rest ih =>
    rw [cacheDelete, List.filter_cons]
    by_cases h : p.1 = y
    · simpa [h] using ih
    · have : (p.1 != y) = true := by simpa using h
      rw [if_pos this, cacheGet_cons, if_neg (by simpa using h)]
      exact ih

theorem cacheGet_set_self (c : Cache) (y : Nat) (e : CacheEntry) :
    cacheGet (cacheSet c y e) y = some e := by
  induction c with
  | nil => simp [cacheSet, cacheGet, List.find?_cons]
  | cons p rest ih =>
    rw [cacheSet]
    by_cases h : p.1 = y
    · simp [h, cacheGet_cons]
    · rw [if_neg (by simpa using h), cacheGet_cons, if_neg (by simpa using h)]
      exact ih

theorem cacheSet_length_le (c : Cache) (y : Nat) (e : CacheEntry) :
    (cacheSet c y e).length ≤ c.length + 1 := by
  induction c with
  | nil => simp [cacheSet]
  | cons p rest ih =>
    rw [cacheSet]
    by_cases h : p.1 = y
    · simp [h]
    · rw [if_neg (by simpa using h)]
      simpa using Nat.succ_le_succ ih

theorem reduceCacheSize_noop {currentYear maxSize targetSize : Nat} {c : Cache}
    {preserve : Bool} (h : c.length ≤ maxSize) :
    reduceCacheSize currentYear c maxSize targetSize preserve = c := by
  simp [reduceCacheSize, h]

/-
  Claims.
-/

/-- C1: for every year with a Static Table entry, when skipStatic is not set,
getHolidays returns exactly the table entry, leaves the cache untouched and
performs no fetch, for every cache state, clock reading and fetch outcome. -/
theorem c1_static_years_bypass_cache_and_network
    (year currentYear now : Nat) (f : FetchOutcome) (cache : Cache)
    (hs : List Holiday) (h : STATIC_HOLIDAYS year = some hs) :
    getHolidaysC false currentYear now f cache year = (.ok hs, cache, false) := by
  simp [getHolidaysC, staticHit, h]

theorem c1_witness :
    getHolidaysC false 2030 999 (.reject "boom") [(2024, ⟨[], 0⟩)] 2024
      = (.ok [⟨"2024-01-01", "Confraternização Universal", "national"⟩,
              ⟨"2024-02-13", "Carnaval", "national"⟩,
              ⟨"2024-03-29", "Sexta-feira Santa", "national"⟩,
              ⟨"2024-04-21", "Tiradentes", "national"⟩,
              ⟨"2024-05-01", "Dia do Trabalho", "national"⟩,
              ⟨"2024-12-25", "Natal", "national"⟩],
         [(2024, ⟨[], 0⟩)], false) :=
  c1_static_years_bypass_cache_and_network 2024 2030 999 (.reject "boom")
    [(2024, ⟨[], 0⟩)] _ rfl

/-- C2: for a string matching the calendar-date pattern, whenever getHolidays
on its year prefix succeeds with list hs, isHoliday succeeds and answers true
exactly when some record of hs has a date field equal to the string. -/
theorem c2_isHoliday_iff_record_matches
    (skipStatic : Bool) (currentYear now : Nat) (f : FetchOutcome) (cache : Cache)
    (d : String) (hs : List Holiday) (c2 : Cache) (fl : Bool)
    (hfmt : isDateFormat d = true)
    (hget : getHolidaysC skipStatic currentYear now f cache (parseYear d) = (.ok hs, c2, fl)) :
    isHolidayC skipStatic currentYear now f cache d
      = (.ok (hs.any (fun h => h.date == d)), c2, fl) ∧
    ((isHolidayC skipStatic currentYear now f cache d).1 = .ok true ↔ ∃ h ∈ hs, h.date = d) := by
  have main : isHolidayC skipStatic currentYear now f cache d
      = (.ok (hs.any (fun h => h.date == d)), c2, fl) := by
    rw [isHolidayC, if_pos hfmt]
    cases hsh : staticHit skipStatic (parseYear d) with
    | some shs =>
      have hg2 : getHolidaysC skipStatic currentYear now f cache (parseYear d)
          = (.ok shs, cache, false) := by
        rw [getHolidaysC.eq_def, hsh]
      rw [hg2] at hget
      injection hget with e1 e2
      injection e2 with e2 e3
      injection e1 with e1
      subst e1; subst e2; subst e3
      simp [hsh]
    | none =>
      simp only [hsh, hget]
  refine ⟨main, ?_⟩
  rw [main]
  simp [List.any_eq_true]

theorem c2_witness :
    isDateFormat "2024-01-01" = true ∧
    isHolidayC false 2030 7 (.reject "x") [] "2024-01-01" = (.ok true, [], false) := by
  refine ⟨by decide, ?_⟩
  have h := (c2_isHoliday_iff_record_matches false 2030 7 (.reject "x") []
    "2024-01-01"
    [⟨"2024-01-01", "Confraternização Universal", "national"⟩,
     ⟨"2024-02-13", "Carnaval", "national"⟩,
     ⟨"2024-03-29", "Sexta-feira Santa", "national"⟩,
     ⟨"2024-04-21", "Tiradentes", "national"⟩,
     ⟨"2024-05-01", "Dia do Trabalho", "national"⟩,
     ⟨"2024-12-25", "Natal", "national"⟩]
    [] false (by decide) (by decide)).1
  exact h.trans (by decide)

/-- C3: a string input matching neither the calendar-date pattern nor a
parseable timestamp, or one whose parsing yields an unrepresentable instant
(such as "2024-13-45"), makes isHoliday fail with InvalidDate, for every
static table, fetch response and fallback-parse behaviour. -/
theorem c3_invalid_dates_fail_with_invalid_date
    (staticTable : Nat → Option (List Holiday)) (fb : String → Option JsDate)
    (resp : ApiResponse) (s : String)
    (h : (isDateFormat s = false ∧ fb s = none) ∨
         (isDateFormat s = true ∧ parseIsoLocal s = none)) :
    isHolidayFn staticTable fb resp s = .error (.invalidDate INVALID_DATE_MSG) := by
  rcases h with ⟨h1, h2⟩ | ⟨h1, h2⟩ <;> simp [isHolidayFn, normalizeDate, h1, h2]

theorem c3_witness :
    isDateFormat "2024-13-45" = true ∧
    isHolidayFn STATIC_HOLIDAYS (fun _ => none) (.networkFailure "down") "2024-13-45"
      = .error (.invalidDate INVALID_DATE_MSG) :=
  ⟨by decide,
   c3_invalid_dates_fail_with_invalid_date STATIC_HOLIDAYS (fun _ => none)
     (.networkFailure "down") "2024-13-45" (Or.inr ⟨by decide, by decide⟩)⟩

/-- C4: the TTL applied to a cache hit is decided by the year class against
the currentYear read at the moment of the check (a free parameter here,
independent of when the entry was inserted): a past year never expires and is
served from the cache, the current year is served while strictly less than
7 days have elapsed, a future year while strictly less than 30 days have
elapsed, and an elapsed entry is treated as a miss, making the call fetch. -/
theorem c4_ttl_by_year_class_at_check_time
    (skipStatic : Bool) (currentYear now year : Nat) (e : CacheEntry)
    (cache : Cache) (f : FetchOutcome)
    (hstat : staticHit skipStatic year = none)
    (hget : cacheGet cache year = some e) :
    (year < currentYear →
      getHolidaysC skipStatic currentYear now f cache year = (.ok e.data, cache, false)) ∧
    (year = currentYear →
      (now - e.timestamp < CACHE_TTL_CURRENT →
        getHolidaysC skipStatic currentYear now f cache year = (.ok e.data, cache, false)) ∧
      (CACHE_TTL_CURRENT ≤ now - e.timestamp →
        (getHolidaysC skipStatic currentYear now f cache year).2.2 = true)) ∧
    (currentYear < year →
      (now - e.timestamp < CACHE_TTL_FUTURE →
        getHolidaysC skipStatic currentYear now f cache year = (.ok e.data, cache, false)) ∧
      (CACHE_TTL_FUTURE ≤ now - e.timestamp →
        (getHolidaysC skipStatic currentYear now f cache year).2.2 = true)) := by
  refine ⟨?_, ?_, ?_⟩
  · intro hpast
    simp [getHolidaysC, hstat, cacheLookup, hget, getCacheTTL, hpast]
  · intro hcur
    subst hcur
    constructor
    · intro hfresh
      simp [getHolidaysC, hstat, cacheLookup, hget, getCacheTTL, hfresh]
    · intro hstale
      have hnl : ¬(now - e.timestamp < CACHE_TTL_CURRENT) := Nat.not_lt.mpr hstale
      cases f <;>
        simp [getHolidaysC, hstat, cacheLookup, hget, getCacheTTL, hnl]
  · intro hfut
    have h1 : ¬(year < currentYear) := Nat.not_lt.mpr (Nat.le_of_lt hfut)
    have h2 : (year == currentYear) = false := by
      simp [Nat.ne_of_gt hfut]
    constructor
    · intro hfresh
      simp [getHolidaysC, hstat, cacheLookup, hget, getCacheTTL, h1, h2, hfresh]
    · intro hstale
      have hnl : ¬(now - e.timestamp < CACHE_TTL_FUTURE) := Nat.not_lt.mpr hstale
      cases f <;>
        simp [getHolidaysC, hstat, cacheLookup, hget, getCacheTTL, h1, h2, hnl]

theorem c4_witness :
    getHolidaysC true 2025 999999999999 (.reject "x") [(1999, ⟨[], 0⟩)] 1999
       = (.ok [], [(1999, ⟨[], 0⟩)], false) ∧
    (getHolidaysC true 2025 999999999999 (.reject "x") [(2025, ⟨[], 0⟩)] 2025).2.2 = true := by
  refine ⟨?_, ?_⟩
  · exact (c4_ttl_by_year_class_at_check_time true 2025 999999999999 1999 ⟨[], 0⟩
      [(1999, ⟨[], 0⟩)] (.reject "x") (by decide) (by decide)).1 (by decide)
  · exact ((c4_ttl_by_year_class_at_check_time true 2025 999999999999 2025 ⟨[], 0⟩
      [(2025, ⟨[], 0⟩)] (.reject "x") (by decide) (by decide)).2.1 rfl).2 (by decide)

set_option maxRecDepth 40000 in
/-- C5 counterexample: a past-year entry (1999, currentYear 2025), once
inserted by getHolidays, is removed by the write-path size eviction of later
getHolidays calls for other years, and a subsequent getHolidays(1999)
performs a fetch instead of returning the inserted data — refuting that the
entry is never removed and every subsequent call avoids a fetch. -/
theorem c5_counterexample :
    cacheGet c5CacheAfterInsert 1999 = some ⟨[], 100⟩ ∧
    cacheGet c5CacheAfterMore 1999 = none ∧
    (getHolidaysC true 2025 999 (.ok []) c5CacheAfterMore 1999).2.2 = true := by
  refine ⟨by decide, by decide, by decide⟩

/-- C5 amended: a cached past-year entry never expires by TTL — as long as it
is still in the cache, getHolidays returns its data without fetching, for
every clock reading — but it is not immune to size-based eviction (see the
counterexample). -/
theorem c5_amended_past_year_entry_never_stale
    (skipStatic : Bool) (currentYear now year : Nat) (e : CacheEntry)
    (cache : Cache) (f : FetchOutcome)
    (hstat : staticHit skipStatic year = none)
    (hget : cacheGet cache year = some e)
    (hpast : year < currentYear) :
    getHolidaysC skipStatic currentYear now f cache year = (.ok e.data, cache, false) := by
  simp [getHolidaysC, hstat, cacheLookup, hget, getCacheTTL, hpast]

theorem c5_amended_witness :
    getHolidaysC true 2025 999999999999999 (.reject "x") [(1999, ⟨[], 3⟩)] 1999
      = (.ok [], [(1999, ⟨[], 3⟩)], false) :=
  c5_amended_past_year_entry_never_stale true 2025 999999999999999 1999 ⟨[], 3⟩
    [(1999, ⟨[], 3⟩)] (.reject "x") (by decide) (by decide) (by decide)

theorem getHolidaysC_fetches_of_miss
    (skipStatic : Bool) (currentYear now year : Nat) (f : FetchOutcome) (cache : Cache)
    (hstat : staticHit skipStatic year = none)
    (hmiss : cacheLookup currentYear now cache year = none) :
    (getHolidaysC skipStatic currentYear now f cache year).2.2 = true := by
  cases f <;> simp [getHolidaysC, hstat, hmiss]

/-- C6: when getHolidays reaches the fetch (no static hit, no valid cache
hit) and the fetch fails, the thrown error is propagated, any cache entry for
the year is removed, and every subsequent getHolidays call for that year
against the resulting cache attempts a fetch again instead of serving stale
pre-failure data. -/
theorem c6_fetch_failure_clears_entry_and_propagates
    (skipStatic : Bool) (currentYear now year : Nat) (f : FetchOutcome) (cache : Cache)
    (hstat : staticHit skipStatic year = none)
    (hmiss : cacheLookup currentYear now cache year = none)
    (hfail : fetchFails f = true) :
    (getHolidaysC skipStatic currentYear now f cache year).1 = .error (thrownError f) ∧
    (getHolidaysC skipStatic currentYear now f cache year).2.1 = cacheDelete cache year ∧
    cacheGet (getHolidaysC skipStatic currentYear now f cache year).2.1 year = none ∧
    (getHolidaysC skipStatic currentYear now f cache year).2.2 = true ∧
    (∀ currentYear2 now2 : Nat, ∀ f2 : FetchOutcome,
      (getHolidaysC skipStatic currentYear2 now2 f2
        (getHolidaysC skipStatic currentYear now f cache year).2.1 year).2.2 = true) := by
  have hdel : (getHolidaysC skipStatic currentYear now f cache year).2.1
      = cacheDelete cache year := by
    cases f with
    | ok data => simp [fetchFails] at hfail
    | httpError s => simp [getHolidaysC, hstat, hmiss]
    | reject m => simp [getHolidaysC, hstat, hmiss]
  have hgone : cacheGet (getHolidaysC skipStatic currentYear now f cache year).2.1 year = none := by
    rw [hdel]; exact cacheGet_delete_self cache year
  refine ⟨?_, hdel, hgone, ?_, ?_⟩
  · cases f with
    | ok data => simp [fetchFails] at hfail
    | httpError s => simp [getHolidaysC, hstat, hmiss, thrownError]
    | reject m => simp [getHolidaysC, hstat, hmiss, thrownError]
  · cases f with
    | ok data => simp [fetchFails] at hfail
    | httpError s => simp [getHolidaysC, hstat, hmiss]
    | reject m => simp [getHolidaysC, hstat, hmiss]
  · intro currentYear2 now2 f2
    refine getHolidaysC_fetches_of_miss skipStatic currentYear2 now2 year f2 _ hstat ?_
    rw [cacheLookup, hgone]

theorem c6_witness :
    (getHolidaysC true 2025 1000000000 (.httpError 500) [(2025, ⟨[⟨"2025-01-01", "Stale", "national"⟩], 0⟩)] 2025).1
      = .error (.apiError "API returned status 500") ∧
    cacheGet (getHolidaysC true 2025 1000000000 (.httpError 500)
      [(2025, ⟨[⟨"2025-01-01", "Stale", "national"⟩], 0⟩)] 2025).2.1 2025 = none ∧
    (getHolidaysC true 2025 1000000001 (.reject "again")
      (getHolidaysC true 2025 1000000000 (.httpError 500)
        [(2025, ⟨[⟨"2025-01-01", "Stale", "national"⟩], 0⟩)] 2025).2.1 2025).2.2 = true := by
  have h := c6_fetch_failure_clears_entry_and_propagates true 2025 1000000000 2025
    (.httpError 500) [(2025, ⟨[⟨"2025-01-01", "Stale", "national"⟩], 0⟩)]
    (by decide) (by decide) (by decide)
  exact ⟨h.1.trans (by decide), h.2.2.1, h.2.2.2.2 2025 1000000001 (.reject "again")⟩

/-- C7: the Remote Fetcher fails with an APIError carrying the response
status text on every non-ok response, and on success maps the JSON body to
holiday records, any record without a type field receiving type national. -/
theorem c7_fetcher_error_and_type_default
    (year : Nat) (st : String) (body : List RawHoliday) :
    fetchHolidaysFromAPI year (.httpFailure st)
      = .error (.apiError ("Failed to fetch holidays for year " ++ toString year ++ ": " ++ st)) ∧
    fetchHolidaysFromAPI year (.success body) = .ok (body.map toHoliday) ∧
    (∀ h ∈ body, h.type = none → (toHoliday h).type = "national") := by
  refine ⟨rfl, rfl, ?_⟩
  intro h _ hnone
  simp [toHoliday, jsOrNational, hnone]

theorem c7_witness :
    fetchHolidaysFromAPI 2030 (.httpFailure "Internal Server Error")
      = .error (.apiError "Failed to fetch holidays for year 2030: Internal Server Error") ∧
    fetchHolidaysFromAPI 2030 (.success [⟨"2030-01-01", "Ano Novo", none⟩])
      = .ok [⟨"2030-01-01", "Ano Novo", "national"⟩] := by
  have h := c7_fetcher_error_and_type_default 2030 "Internal Server Error"
    [⟨"2030-01-01", "Ano Novo", none⟩]
  exact ⟨h.1.trans (by decide), h.2.1.trans (by decide)⟩

/-- C8 counterexample: on the fetch path, the reference returned to the
caller (0) is the very reference stored in the cache entry, not a copy; and
mutating that returned array changes what a later cache-hit lookup observes
(the untouched run sees the fetched record, the mutated run sees the
emptied array). -/
theorem c8_counterexample :
    c8RunA.1 = .ok 0 ∧
    rcacheGet c8RunA.2.2.1 1999 = some ⟨0, 100⟩ ∧
    c8RunB.1 = .ok 1 ∧
    Store.read c8RunB.2.1 1 = [⟨"1999-01-01", "Ano Novo", "national"⟩] ∧
    c8RunC.1 = .ok 1 ∧
    Store.read c8RunC.2.1 1 = [] := by
  refine ⟨by decide, by decide, by decide, by decide, by decide, by decide⟩

theorem store_read_write_fresh (arrs : List (List Holiday)) (x v : List Holiday)
    (i : Nat) (h : i < arrs.length) :
    Store.read (Store.write ⟨arrs ++ [x]⟩ arrs.length v) i = Store.read ⟨arrs⟩ i := by
  simp only [Store.read, Store.write, List.getD, List.get?_eq_getElem?]
  rw [List.getElem?_set_ne (Nat.ne_of_lt h).symm]
  simp [List.getElem?_append, h]

/-- C8 amended: on every return path that does not fetch (static hit or
valid cache hit), the caller receives a freshly allocated array, distinct
from every array the cache refers to; mutating it changes neither the cached
arrays nor what they read before the call.  (The fetch path instead returns
the very array it stores in the cache — see the counterexample.) -/
theorem c8_amended_nonfetch_paths_return_copies
    (skipStatic : Bool) (currentYear now year : Nat) (f : FetchOutcome)
    (st : Store) (cache : RCache)
    (hflag : (getHolidaysR skipStatic currentYear now f st cache year).2.2.2 = false) :
    (getHolidaysR skipStatic currentYear now f st cache year).2.2.1 = cache ∧
    (getHolidaysR skipStatic currentYear now f st cache year).1 = .ok st.arrs.length ∧
    (∀ p ∈ cache, p.2.dataRef < st.arrs.length → p.2.dataRef ≠ st.arrs.length) ∧
    (∀ v : List Holiday, ∀ p ∈ cache, p.2.dataRef < st.arrs.length →
      Store.read (Store.write (getHolidaysR skipStatic currentYear now f st cache year).2.1
          st.arrs.length v) p.2.dataRef
        = Store.read st p.2.dataRef) := by
  cases hsh : staticHit skipStatic year with
  | some hs =>
    rw [getHolidaysR.eq_def, hsh]
    refine ⟨rfl, rfl, ?_, ?_⟩
    · intro p _ hlt
      exact Nat.ne_of_lt hlt
    · intro v p _ hlt
      exact store_read_write_fresh st.arrs hs v p.2.dataRef hlt
  | none =>
    cases hlk : rcacheLookup currentYear now cache year with
    | some dref =>
      rw [getHolidaysR.eq_def, hsh, hlk]
      refine ⟨rfl, rfl, ?_, ?_⟩
      · intro p _ hlt
        exact Nat.ne_of_lt hlt
      · intro v p _ hlt
        exact store_read_write_fresh st.arrs (Store.read st dref) v p.2.dataRef hlt
    | none =>
      exfalso
      rw [getHolidaysR.eq_def, hsh, hlk] at hflag
      cases f <;> simp at hflag

theorem c8_amended_witness :
    (getHolidaysR true 2025 100 (.reject "x") ⟨[[]]⟩ [(1999, ⟨0, 5⟩)] 1999).1 = .ok 1 ∧
    (getHolidaysR true 2025 100 (.reject "x") ⟨[[]]⟩ [(1999, ⟨0, 5⟩)] 1999).2.2.1
      = [(1999, ⟨0, 5⟩)] := by
  have h := c8_amended_nonfetch_paths_return_copies true 2025 100 1999 (.reject "x")
    ⟨[[]]⟩ [(1999, ⟨0, 5⟩)] (by decide)
  exact ⟨h.2.1, h.1⟩

/-
  Lemmas about the eviction loop, for the background-cleanup claim.
-/

theorem mem_of_mem_reduceLoop {cy : Nat} {pres : Bool} {t : Nat} :
    ∀ {l : List (Nat × CacheEntry)} {c : Cache} {p : Nat × CacheEntry},
      p ∈ reduceLoop cy pres t c l → p ∈ c := by
  intro l
  induction l with
  | nil => intro c p h; simpa [reduceLoop] using h
  | cons q rest ih =>
    intro c p h
    rw [reduceLoop] at h
    by_cases hlen : c.length ≤ t
    · rwa [if_pos hlen] at h
    · rw [if_neg hlen] at h
      have h2 := ih h
      by_cases hw : (pres && inPreservationWindow cy q.1) = true
      · rwa [if_pos hw] at h2
      · rw [if_neg hw] at h2
        exact (List.mem_filter.mp h2).1

theorem window_mem_reduceLoop {cy : Nat} {t : Nat} :
    ∀ {l : List (Nat × CacheEntry)} {c : Cache} {p : Nat × CacheEntry},
      p ∈ c → inPreservationWindow cy p.1 = true → p ∈ reduceLoop cy true t c l := by
  intro l
  induction l with
  | nil => intro c p hp _; simpa [reduceLoop] using hp
  | cons q rest ih =>
    intro c p hp hw
    rw [reduceLoop]
    by_cases hlen : c.length ≤ t
    · rwa [if_pos hlen]
    · rw [if_neg hlen]
      refine ih ?_ hw
      by_cases hwq : (true && inPreservationWindow cy q.1) = true
      · rwa [if_pos hwq]
      · rw [if_neg hwq]
        refine List.mem_filter.mpr ⟨hp, ?_⟩
        have hq : inPreservationWindow cy q.1 = false := by simpa using hwq
        have hne : p.1 ≠ q.1 := by
          intro he
          rw [he, hq] at hw
          exact Bool.false_ne_true hw
        simpa using hne

theorem reduceLoop_all_window {cy : Nat} {t : Nat} :
    ∀ {l : List (Nat × CacheEntry)} {c : Cache},
      (∀ p ∈ c, inPreservationWindow cy p.1 = false → p.1 ∈ l.map Prod.fst) →
      t < (reduceLoop cy true t c l).length →
      ∀ p ∈ reduceLoop cy true t c l, inPreservationWindow cy p.1 = true := by
  intro l
  induction l with
  | nil =>
    intro c hcov hlen p hp
    rw [reduceLoop] at hp
    by_contra hfalse
    have h2 := hcov p hp (by simpa using hfalse)
    simp at h2
  | cons q rest ih =>
    intro c hcov hlen p hp
    rw [reduceLoop] at hlen hp
    by_cases hl : c.length ≤ t
    · rw [if_pos hl] at hlen
      exact absurd hlen (Nat.not_lt.mpr hl)
    · rw [if_neg hl] at hlen hp
      refine ih ?_ hlen p hp
      intro p2 hp2 hw2
      by_cases hwq : (true && inPreservationWindow cy q.1) = true
      · rw [if_pos hwq] at hp2
        have h2 := hcov p2 hp2 hw2
        rw [List.map_cons] at h2
        rcases List.mem_cons.mp h2 with he | hm
        · exfalso
          have hqw : inPreservationWindow cy q.1 = true := by simpa using hwq
          rw [he, hqw] at hw2
          exact Bool.noConfusion hw2
        · exact hm
      · rw [if_neg hwq] at hp2
        have hmem := (List.mem_filter.mp hp2).1
        have hne : (p2.1 != q.1) = true := (List.mem_filter.mp hp2).2
        have h2 := hcov p2 hmem hw2
        rw [List.map_cons] at h2
        rcases List.mem_cons.mp h2 with he | hm
        · exfalso
          rw [he] at hne
          simp at hne
        · exact hm

theorem reduceLoop_eq_foldDel (cy : Nat) (pres : Bool) (t : Nat) :
    ∀ (l : List (Nat × CacheEntry)) (c : Cache), ∃ l1 l2,
      l = l1 ++ l2 ∧ reduceLoop cy pres t c l = foldDel cy pres c l1 := by
  intro l
  induction l with
  | nil => intro c; exact ⟨[], [], rfl, by rw [reduceLoop]; rfl⟩
  | cons q rest ih =>
    intro c
    by_cases hl : c.length ≤ t
    · exact ⟨[], q :: rest, rfl, by rw [reduceLoop, if_pos hl]; rfl⟩
    · obtain ⟨l1, l2, heq, hred⟩ :=
        ih (if pres && inPreservationWindow cy q.1 then c else cacheDelete c q.1)
      refine ⟨q :: l1, l2, by rw [List.cons_append, heq], ?_⟩
      rw [reduceLoop, if_neg hl]
      exact hred

theorem mem_foldDel (cy : Nat) (pres : Bool) :
    ∀ (l1 : List (Nat × CacheEntry)) (c : Cache) (p : Nat × CacheEntry),
      p ∈ foldDel cy pres c l1 ↔
        p ∈ c ∧ ∀ u ∈ l1, (pres && inPreservationWindow cy u.1) = true ∨ p.1 ≠ u.1 := by
  intro l1
  induction l1 with
  | nil => intro c p; simp [foldDel]
  | cons u rest ih =>
    intro c p
    have hfold : foldDel cy pres c (u :: rest)
        = foldDel cy pres (if pres && inPreservationWindow cy u.1 then c else cacheDelete c u.1) rest := rfl
    rw [hfold]
    constructor
    · intro h
      obtain ⟨hmem, hrest⟩ := (ih _ p).mp h
      by_cases hw : (pres && inPreservationWindow cy u.1) = true
      · rw [if_pos hw] at hmem
        refine ⟨hmem, ?_⟩
        intro v hv
        rcases List.mem_cons.mp hv with rfl | hv2
        · exact Or.inl hw
        · exact hrest v hv2
      · rw [if_neg hw] at hmem
        have h1 : p ∈ c := (List.mem_filter.mp hmem).1
        have h2 : (p.1 != u.1) = true := (List.mem_filter.mp hmem).2
        refine ⟨h1, ?_⟩
        intro v hv
        rcases List.mem_cons.mp hv with rfl | hv2
        · exact Or.inr (by simpa using h2)
        · exact hrest v hv2
    · rintro ⟨hc, hall⟩
      refine (ih _ p).mpr ⟨?_, fun v hv => hall v (List.mem_cons_of_mem _ hv)⟩
      by_cases hw : (pres && inPreservationWindow cy u.1) = true
      · rwa [if_pos hw]
      · rw [if_neg hw]
        refine List.mem_filter.mpr ⟨hc, ?_⟩
        rcases hall u (List.mem_cons_self u rest) with h | h
        · exact absurd h hw
        · simpa using h

theorem cacheDelete_eq_self_of_not_mem (c : Cache) (y : Nat)
    (h : y ∉ c.map Prod.fst) : cacheDelete c y = c := by
  rw [cacheDelete]
  apply List.filter_eq_self.mpr
  intro p hp
  have hne : p.1 ≠ y := fun he => h (he ▸ List.mem_map_of_mem Prod.fst hp)
  simpa using hne

theorem cacheDelete_length_ge (c : Cache) (y : Nat) (h : (c.map Prod.fst).Nodup) :
    c.length - 1 ≤ (cacheDelete c y).length := by
  induction c with
  | nil => simp [cacheDelete]
  | cons p rest ih =>
    rw [List.map_cons, List.nodup_cons] at h
    by_cases hpy : p.1 = y
    · have hrest : cacheDelete rest y = rest :=
        cacheDelete_eq_self_of_not_mem rest y (hpy ▸ h.1)
      have hcons : cacheDelete (p :: rest) y = rest := by
        rw [cacheDelete, List.filter_cons, if_neg (by simp [hpy])]
        exact hrest
      rw [hcons]
      simp
    · have hcons : cacheDelete (p :: rest) y = p :: cacheDelete rest y := by
        rw [cacheDelete, List.filter_cons, if_pos (by simpa using hpy)]
        rfl
      rw [hcons]
      simp only [List.length_cons]
      have hih := ih h.2
      omega

theorem reduceLoop_length_ge {cy : Nat} {pres : Bool} {t : Nat} :
    ∀ {l : List (Nat × CacheEntry)} {c : Cache},
      (c.map Prod.fst).Nodup → t ≤ c.length → t ≤ (reduceLoop cy pres t c l).length := by
  intro l
  induction l with
  | nil =>
    intro c _ hle
    rw [reduceLoop]
    exact hle
  | cons q rest ih =>
    intro c hnd hle
    rw [reduceLoop]
    by_cases hl : c.length ≤ t
    · rw [if_pos hl]
      exact hle
    · rw [if_neg hl]
      have hgt : t < c.length := Nat.not_le.mp hl
      by_cases hw : (pres && inPreservationWindow cy q.1) = true
      · rw [if_pos hw]
        exact ih hnd hle
      · rw [if_neg hw]
        have hnd2 : ((cacheDelete c q.1).map Prod.fst).Nodup :=
          hnd.sublist ((List.filter_sublist c).map Prod.fst)
        refine ih hnd2 ?_
        have hdel := cacheDelete_length_ge c q.1 hnd
        omega

theorem mem_of_mem_reduceCacheSize {cy m t : Nat} {pres : Bool} {c : Cache}
    {p : Nat × CacheEntry} (h : p ∈ reduceCacheSize cy c m t pres) : p ∈ c := by
  rw [reduceCacheSize] at h
  by_cases hl : c.length ≤ m
  · rwa [if_pos hl] at h
  · rw [if_neg hl] at h
    exact mem_of_mem_reduceLoop h

/-- C9: a cleanup pass first deletes exactly the entries with an elapsed
finite TTL (survivors are all unexpired, and the pass is the pure TTL filter
whenever the size cap is not exceeded afterwards); when the cap is exceeded,
eviction never touches an entry within two years of currentYear, runs oldest
timestamp first among the evictable entries (an evictable survivor implies
survival of every evictable entry with a strictly larger timestamp), stops
at the target occupancy (post-pass occupancy never drops below
CACHE_CLEANUP_TARGET), and if occupancy still exceeds the target then only
window entries are left, i.e. no evictable entries remained. -/
theorem c9_cleanup_ttl_then_capped_eviction
    (cy now : Nat) (c : Cache) (hkeys : (c.map Prod.fst).Nodup) :
    (∀ p ∈ cleanupPass cy now c, entryExpired cy now p = false) ∧
    (∀ p ∈ c, entryExpired cy now p = false → inPreservationWindow cy p.1 = true →
      p ∈ cleanupPass cy now c) ∧
    ((c.filter (fun p => !entryExpired cy now p)).length ≤ CACHE_MAX_SIZE →
      cleanupPass cy now c = c.filter (fun p => !entryExpired cy now p)) ∧
    (CACHE_CLEANUP_TARGET < (cleanupPass cy now c).length →
      CACHE_MAX_SIZE < (c.filter (fun p => !entryExpired cy now p)).length →
      ∀ p ∈ cleanupPass cy now c, inPreservationWindow cy p.1 = true) ∧
    (∀ p q : Nat × CacheEntry, q ∈ c →
      entryExpired cy now q = false →
      inPreservationWindow cy p.1 = false → inPreservationWindow cy q.1 = false →
      p.2.timestamp < q.2.timestamp →
      p ∈ cleanupPass cy now c → q ∈ cleanupPass cy now c) ∧
    (CACHE_MAX_SIZE < (c.filter (fun p => !entryExpired cy now p)).length →
      CACHE_CLEANUP_TARGET ≤ (cleanupPass cy now c).length) := by
  set c1 := c.filter (fun p => !entryExpired cy now p) with hc1
  have hc1keys : (c1.map Prod.fst).Nodup :=
    hkeys.sublist ((List.filter_sublist c).map Prod.fst)
  have hpass : cleanupPass cy now c = reduceCacheSize cy c1 CACHE_MAX_SIZE CACHE_CLEANUP_TARGET true := rfl
  have hmemc1 : ∀ p ∈ c1, entryExpired cy now p = false := by
    intro p hp
    have h2 := (List.mem_filter.mp hp).2
    simpa using h2
  refine ⟨?_, ?_, ?_, ?_, ?_, ?_⟩
  · intro p hp
    rw [hpass] at hp
    exact hmemc1 p (mem_of_mem_reduceCacheSize hp)
  · intro p hp hunexp hwin
    have hp1 : p ∈ c1 := List.mem_filter.mpr ⟨hp, by simpa using hunexp⟩
    rw [hpass, reduceCacheSize]
    by_cases hl : c1.length ≤ CACHE_MAX_SIZE
    · rwa [if_pos hl]
    · rw [if_neg hl]
      exact window_mem_reduceLoop hp1 hwin
  · intro hl
    rw [hpass]
    exact reduceCacheSize_noop hl
  · intro hlong hover p hp
    rw [hpass, reduceCacheSize, if_neg (Nat.not_le.mpr hover)] at hp
    rw [hpass, reduceCacheSize, if_neg (Nat.not_le.mpr hover)] at hlong
    refine reduceLoop_all_window ?_ hlong p hp
    intro p2 hp2 _
    have : p2 ∈ sortByTimestamp c1 := ((List.perm_insertionSort tsLE c1).symm.mem_iff).mp hp2
    exact List.mem_map_of_mem Prod.fst this
  · intro p q hqc hqunexp hpw hqw hts hpres
    have hq1 : q ∈ c1 := List.mem_filter.mpr ⟨hqc, by simpa using hqunexp⟩
    rw [hpass, reduceCacheSize] at hpres ⊢
    by_cases hl : c1.length ≤ CACHE_MAX_SIZE
    · rwa [if_pos hl]
    · rw [if_neg hl] at hpres ⊢
      obtain ⟨l1, l2, heq, hred⟩ := reduceLoop_eq_foldDel cy true CACHE_CLEANUP_TARGET (sortByTimestamp c1) c1
      rw [hred] at hpres ⊢
      obtain ⟨hpc1, hallp⟩ := (mem_foldDel cy true l1 c1 p).mp hpres
      have hpnotl1 : p ∉ l1 := by
        intro hmem
        rcases hallp p hmem with h | h
        · rw [hpw] at h
          simp at h
        · exact h rfl
      have hpl : p ∈ sortByTimestamp c1 := ((List.perm_insertionSort tsLE c1).symm.mem_iff).mp hpc1
      have hpl2 : p ∈ l2 := by
        rw [heq] at hpl
        rcases List.mem_append.mp hpl with h | h
        · exact absurd h hpnotl1
        · exact h
      refine (mem_foldDel cy true l1 c1 q).mpr ⟨hq1, ?_⟩
      intro u hu
      by_cases hwu : (true && inPreservationWindow cy u.1) = true
      · exact Or.inl hwu
      · refine Or.inr ?_
        intro hequ
        have huc1 : u ∈ c1 := by
          have : u ∈ sortByTimestamp c1 := by
            rw [heq]
            exact List.mem_append.mpr (Or.inl hu)
          exact ((List.perm_insertionSort tsLE c1).mem_iff).mp this
        have huq : u = q := List.inj_on_of_nodup_map hc1keys huc1 hq1 (by simpa using hequ.symm)
        have hsorted : List.Sorted tsLE (sortByTimestamp c1) := List.sorted_insertionSort tsLE c1
        rw [heq] at hsorted
        have hle : tsLE u p := (List.pairwise_append.mp hsorted).2.2 u hu p hpl2
        rw [huq] at hle
        exact absurd hts (Nat.not_lt.mpr hle)
  · intro hover
    rw [hpass, reduceCacheSize, if_neg (Nat.not_le.mpr hover)]
    refine reduceLoop_length_ge hc1keys ?_
    have h80 : CACHE_CLEANUP_TARGET ≤ CACHE_MAX_SIZE := by decide
    exact Nat.le_trans h80 (Nat.le_of_lt hover)

theorem c9_witness :
    cleanupPass 2025 1000000000 [(2020, ⟨[], 5⟩), (2025, ⟨[], 3⟩)] = [(2020, ⟨[], 5⟩)] := by
  have h := (c9_cleanup_ttl_then_capped_eviction 2025 1000000000
    [(2020, ⟨[], 5⟩), (2025, ⟨[], 3⟩)] (by decide)).2.2.1 (by decide)
  exact h.trans (by decide)

theorem startCacheCleanupS_cache (s : ProcState) : (startCacheCleanupS s).cache = s.cache := by
  rw [startCacheCleanupS]
  by_cases h : s.timerStarted <;> simp [h]

theorem constructMany_of_started :
    ∀ (opts : List Bool) (s : ProcState), s.timerStarted = true → constructMany opts s = s := by
  intro opts
  induction opts with
  | nil => intro s _; rfl
  | cons o rest ih =>
    intro s h
    have h2 : (mkBRHoliday o s).2 = s := by
      simp [mkBRHoliday, startCacheCleanupS, h]
    calc constructMany (o :: rest) s = constructMany rest (mkBRHoliday o s).2 := rfl
      _ = constructMany rest s := by rw [h2]
      _ = s := ih s h

theorem constructMany_cache :
    ∀ (opts : List Bool) (s : ProcState), (constructMany opts s).cache = s.cache := by
  intro opts
  induction opts with
  | nil => intro s; rfl
  | cons o rest ih =>
    intro s
    calc (constructMany (o :: rest) s).cache = (constructMany rest (mkBRHoliday o s).2).cache := rfl
      _ = (mkBRHoliday o s).2.cache := ih _
      _ = s.cache := startCacheCleanupS_cache s

/-- C10: API_CACHE and the cleanup timer are module-level and shared.
Constructing any number of instances, with any options, from a fresh module
state starts the timer at most once and never touches the cache; and a
successful fetch of a non-static year through an instance A is immediately
visible in the shared state, so a subsequent getHolidays on any instance B
(while the entry is TTL-valid at the later check) returns the fetched data
from the cache without fetching. -/
theorem c10_module_singletons_shared
    (A B : Bool) (currentYear now year : Nat) (data : List Holiday) (s : ProcState)
    (opts : List Bool) (s0 : ProcState)
    (hfresh : s0.timerStarted = false) (hcount : s0.timersEverStarted = 0)
    (hstatic : STATIC_HOLIDAYS year = none)
    (hmiss : cacheLookup currentYear now s.cache year = none)
    (hsize : s.cache.length < CACHE_IMMEDIATE_CLEANUP_THRESHOLD) :
    ((constructMany opts s0).timersEverStarted ≤ 1 ∧
     (constructMany opts s0).cache = s0.cache) ∧
    ((instGetHolidays A currentYear now (.ok data) s year).1 = .ok data ∧
     (instGetHolidays A currentYear now (.ok data) s year).2.2 = true ∧
     cacheGet (instGetHolidays A currentYear now (.ok data) s year).2.1.cache year
       = some ⟨data, now⟩ ∧
     (∀ currentYear2 now2 : Nat, ∀ f2 : FetchOutcome,
       (∀ ttl, getCacheTTL currentYear2 year = some ttl → now2 - now < ttl) →
       instGetHolidays B currentYear2 now2 f2
           (instGetHolidays A currentYear now (.ok data) s year).2.1 year
         = (.ok data, (instGetHolidays A currentYear now (.ok data) s year).2.1, false))) := by
  have hA : getHolidaysC A currentYear now (.ok data) s.cache year
      = (.ok data, cacheSet s.cache year ⟨data, now⟩, true) := by
    have hnoop : reduceCacheSize currentYear (cacheSet s.cache year ⟨data, now⟩)
        CACHE_IMMEDIATE_CLEANUP_THRESHOLD CACHE_IMMEDIATE_CLEANUP_TARGET false
        = cacheSet s.cache year ⟨data, now⟩ :=
      reduceCacheSize_noop (Nat.le_trans (cacheSet_length_le s.cache year ⟨data, now⟩)
        (Nat.succ_le_of_lt hsize))
    rw [getHolidaysC, staticHit_of_none A hstatic, hmiss]
    simp [hnoop]
  constructor
  · constructor
    · cases opts with
      | nil => simp [constructMany, hcount]
      | cons o rest =>
        have hstep : (mkBRHoliday o s0).2.timerStarted = true ∧
            (mkBRHoliday o s0).2.timersEverStarted = 1 := by
          simp [mkBRHoliday, startCacheCleanupS, hfresh, hcount]
        calc (constructMany (o :: rest) s0).timersEverStarted
            = (constructMany rest (mkBRHoliday o s0).2).timersEverStarted := rfl
          _ = (mkBRHoliday o s0).2.timersEverStarted := by
              rw [constructMany_of_started rest _ hstep.1]
          _ ≤ 1 := by rw [hstep.2]
    · exact constructMany_cache opts s0
  · have hAstate : (instGetHolidays A currentYear now (.ok data) s year).2.1.cache
        = cacheSet s.cache year ⟨data, now⟩ := by
      simp [instGetHolidays, hA]
    have hgot : cacheGet (instGetHolidays A currentYear now (.ok data) s year).2.1.cache year
        = some ⟨data, now⟩ := by
      rw [hAstate]
      exact cacheGet_set_self s.cache year ⟨data, now⟩
    refine ⟨by simp [instGetHolidays, hA], by simp [instGetHolidays, hA], hgot, ?_⟩
    intro currentYear2 now2 f2 httl
    have hlk2 : cacheLookup currentYear2 now2 (cacheSet s.cache year ⟨data, now⟩) year
        = some data := by
      rw [cacheLookup, cacheGet_set_self]
      cases h2 : getCacheTTL currentYear2 year with
      | none => rfl
      | some ttl => simp [httl ttl h2]
    have hB : getHolidaysC B currentYear2 now2 f2 (cacheSet s.cache year ⟨data, now⟩) year
        = (.ok data, cacheSet s.cache year ⟨data, now⟩, false) := by
      simp [getHolidaysC, staticHit_of_none B hstatic, hlk2]
    simp [instGetHolidays, hA, hB]

theorem c10_witness :
    (constructMany [true, false, true] ⟨[], false, 0⟩).timersEverStarted ≤ 1 ∧
    instGetHolidays false 2025 101 (.reject "x")
        (instGetHolidays true 2025 100 (.ok []) ⟨[], true, 1⟩ 1999).2.1 1999
      = (.ok [], (instGetHolidays true 2025 100 (.ok []) ⟨[], true, 1⟩ 1999).2.1, false) := by
  have h := c10_module_singletons_shared true false 2025 100 1999 [] ⟨[], true, 1⟩
    [true, false, true] ⟨[], false, 0⟩ rfl rfl (by decide) (by decide) (by decide)
  refine ⟨h.1.1, h.2.2.2.2 2025 101 (.reject "x") ?_⟩
  intro ttl h2
  simp [getCacheTTL] at h2
